import Mathlib

/-!
Verification of `src/backend/app/api/routes/audio.py` (key detection,
stereo processing adapter, and the three HTTP endpoints) against its
natural-language specification.

Modelling conventions for the shallow embedding:

* Python floats are modelled as exact rationals (`ℚ`); float literals such
  as `6.35` or `1e-10` denote the corresponding decimal rationals.
* A Pearson correlation value produced by `np.corrcoef(x, y)[0, 1]` is
  either NaN (when one argument has zero variance, giving 0/0) or the real
  number `sxy / √(sxx · syy)` where `sxy, sxx, syy` are the centered
  (co)variance sums.  Since `sxy, sxx, syy` are rational whenever the
  input vectors are rational, we represent such a value exactly by the
  pair `(sxy, sxx * syy)` in the constructor `CVal.fin`, together with a
  NaN constructor; comparisons on `CVal` implement the real-number
  comparison `a₁/√d₁ > a₂/√d₂` exactly (see `qgt`, justified against
  `Real.sqrt` by the bridge lemmas below).
* The L2-normalisation steps of `detect_key` divide a rational vector by
  the positive real scalars `√(Σ pᵢ²)` (profiles) and `√(Σ mᵢ²) + 1e-10`
  (chroma mean).  A normalised vector is represented as the pair of its
  rational numerator vector and its symbolic positive divisor (`NVec`),
  and `corrcoef` is computed on the numerators: a Pearson correlation is
  invariant under multiplying either argument by a positive scalar, so
  the divisors cancel exactly (lemmas `pearsonR_smul_left` and
  `pearsonR_smul_right` below record this fact over `ℝ`).
-/

namespace Mkv

/-! ### Key detection constants (`audio.py` lines 21-30) -/

/-- `KEY_NAMES` from `audio.py`: the twelve pitch class names C..B in
order (written as the two halves of the chromatic scale appended, which
is the same list value). -/
def KEY_NAMES : List String :=
  ["C", "C#", "D", "D#", "E", "F"] ++ ["F#", "G", "G#", "A", "A#", "B"]

/-- `MAJOR_PROFILE`: the Krumhansl-Schmuckler major key profile. -/
def MAJOR_PROFILE : List ℚ :=
  [6.35, 2.23, 3.48, 2.33, 4.38, 4.09, 2.52, 5.19, 2.39, 3.66, 2.29, 2.88]

/-- `MINOR_PROFILE`: the Krumhansl-Schmuckler minor key profile. -/
def MINOR_PROFILE : List ℚ :=
  [6.33, 2.68, 3.52, 5.38, 2.60, 3.53, 2.54, 4.75, 3.98, 2.69, 3.34, 3.17]

/-! ### Numpy primitives used by `detect_key` -/

/-- `np.mean` of a 1-D array.  (All call sites in `detect_key` apply it to
rows of a chroma matrix with at least one frame; for the empty list this
model returns `0` where numpy would return NaN.) -/
def np_mean (v : List ℚ) : ℚ := v.sum / (v.length : ℚ)

/-- `np.roll(v, i)`: cyclically shift a vector `i` places to the right. -/
def np_roll (v : List ℚ) (i : Nat) : List ℚ :=
  if v.length = 0 then v
  else v.drop (v.length - i % v.length) ++ v.take (v.length - i % v.length)

/-- The square of `np.linalg.norm(v)`, i.e. `Σ vᵢ²` (a rational; the norm
itself is its real square root). -/
def linalg_norm_sq (v : List ℚ) : ℚ := (v.map fun x => x * x).sum

/-- Symbolic representation of the positive real divisor used in the two
normalisation steps of `detect_key`:
`divSqrt q` stands for `√q` (used for `PROFILE / np.linalg.norm(PROFILE)`)
and `divSqrtPlus q e` stands for `√q + e` (used for
`chroma_mean / (np.linalg.norm(chroma_mean) + 1e-10)`). -/
inductive Divisor where
  | divSqrt (q : ℚ) : Divisor
  | divSqrtPlus (q e : ℚ) : Divisor
deriving DecidableEq

/-- A normalised vector: rational numerator vector together with the
symbolic positive real scalar it is divided by. -/
structure NVec where
  num : List ℚ
  den : Divisor
deriving DecidableEq

/-- `MAJOR_PROFILE / np.linalg.norm(MAJOR_PROFILE)` (line 38-39 of
`audio.py`), kept as numerator and symbolic divisor. -/
def normalize_profile (p : List ℚ) : NVec :=
  ⟨p, Divisor.divSqrt (linalg_norm_sq p)⟩

/-- `chroma_mean / (np.linalg.norm(chroma_mean) + 1e-10)` (line 40),
kept as numerator and symbolic divisor. -/
def normalize_chroma (m : List ℚ) : NVec :=
  ⟨m, Divisor.divSqrtPlus (linalg_norm_sq m) (1 / 10 ^ 10)⟩

/-- `np.roll` applied to a normalised vector rolls its numerator (the
scalar divisor is unaffected by a cyclic shift). -/
def nv_roll (v : NVec) (i : Nat) : NVec := ⟨np_roll v.num i, v.den⟩

/-- Centered product sum `Σ (xᵢ - x̄)(yᵢ - ȳ)`, computed in the
equivalent closed form `Σ xᵢyᵢ - (Σ xᵢ)(Σ yᵢ)/n`. -/
def centered_dot (x y : List ℚ) : ℚ :=
  (List.zipWith (· * ·) x y).sum - x.sum * y.sum / (x.length : ℚ)

/-- The exact value of a float Pearson correlation coefficient:
`nan`, or `fin a d` standing for the real number `a / √d` (`d > 0` at
every call site that produces `fin`). -/
inductive CVal where
  | nan : CVal
  | fin (a : ℚ) (d : ℚ) : CVal
deriving DecidableEq

/-- Exact comparison `a₁ / √d₁ > a₂ / √d₂` for `d₁, d₂ > 0`, by sign
analysis and cross-multiplied squares (see the bridge lemma
`qgt_iff_real`). -/
def qgt (a₁ d₁ a₂ d₂ : ℚ) : Bool :=
  if 0 < a₁ then
    (if 0 < a₂ then decide (a₂ ^ 2 * d₁ < a₁ ^ 2 * d₂) else true)
  else
    (if 0 ≤ a₂ then false
     else decide (a₁ ^ 2 * d₂ < a₂ ^ 2 * d₁))

/-- Float `>` on correlation values: any comparison with NaN is false. -/
def cvgt : CVal → CVal → Bool
  | CVal.fin a₁ d₁, CVal.fin a₂ d₂ => qgt a₁ d₁ a₂ d₂
  | _, _ => false

/-- Float `<=` on correlation values: any comparison with NaN is false;
on non-NaN values it is the negation of `>`. -/
def cvle : CVal → CVal → Bool
  | CVal.fin a₁ d₁, CVal.fin a₂ d₂ => !qgt a₁ d₁ a₂ d₂
  | _, _ => false

/-- `np.corrcoef(x, y)[0, 1]` on two normalised vectors.  The positive
scalar divisors cancel in a Pearson correlation, so the value depends
only on the rational numerators: it is NaN when either argument has zero
variance (float 0/0; note a zero-variance argument also forces the
covariance to be 0), and otherwise `sxy / √(sxx · syy)`. -/
def corrcoef (x y : NVec) : CVal :=
  let sxy := centered_dot x.num y.num
  let sxx := centered_dot x.num x.num
  let syy := centered_dot y.num y.num
  if sxx = 0 ∨ syy = 0 then CVal.nan else CVal.fin sxy (sxx * syy)

/-- The inner loop of numpy's `argmax` on a float array: the running
maximum is replaced whenever the current element does not satisfy
`current <= max` (so a NaN always wins), and the scan stops at the first
NaN. `idx` is the index of the running maximum, `i` the index of the
head of the remaining list. -/
def argmax_go : CVal → Nat → Nat → List CVal → Nat
  | _, idx, _, [] => idx
  | mp, idx, i, c :: cs =>
    if cvle c mp then argmax_go mp idx (i + 1) cs
    else
      match c with
      | CVal.nan => i
      | CVal.fin a d => argmax_go (CVal.fin a d) i (i + 1) cs

/-- `np.argmax` on a float array: index of the first NaN if any is
present, otherwise the index of the first occurrence of the maximum. -/
def np_argmax : List CVal → Nat
  | [] => 0
  | c :: cs =>
    match c with
    | CVal.nan => 0
    | CVal.fin a d => argmax_go (CVal.fin a d) 0 1 cs

/-- `correlations[np.argmax(correlations)]` (lines 53-56 of `audio.py`):
the value at the argmax index.  The index is always in range at the call
sites (lists of length 12); the default is never used. -/
def best_corr (l : List CVal) : CVal := l.getD (np_argmax l) CVal.nan

/-- The list `[np.corrcoef(chroma_norm, np.roll(profile_norm, i))[0,1]
for i in range(12)]` built by the loop at lines 46-50 of `audio.py`. -/
def chroma_corrs (profile : List ℚ) (chroma_mean : List ℚ) : List CVal :=
  (List.range 12).map fun i =>
    corrcoef (normalize_chroma chroma_mean) (nv_roll (normalize_profile profile) i)

/-- Body of `detect_key` after the `np.mean` step (lines 37-59 of
`audio.py`), as a function of the 12-entry chroma mean vector. -/
def detect_key_of_mean (chroma_mean : List ℚ) : String :=
  let major_correlations := chroma_corrs MAJOR_PROFILE chroma_mean
  let minor_correlations := chroma_corrs MINOR_PROFILE chroma_mean
  if cvgt (best_corr major_correlations) (best_corr minor_correlations) then
    (KEY_NAMES.getD (np_argmax major_correlations) "") ++ " major"
  else
    (KEY_NAMES.getD (np_argmax minor_correlations) "") ++ " minor"

/-- `detect_key` (lines 33-59 of `audio.py`): average the chroma matrix
across frames (`np.mean(chroma, axis=1)` = the mean of each of the 12
pitch-class rows), then correlate against all 24 rotated key profiles. -/
def detect_key (chroma : List (List ℚ)) : String :=
  detect_key_of_mean (chroma.map np_mean)

/-! ### Stereo adapter (`process_audio_stereo`, lines 145-159) -/

/-- An audio buffer as returned by `librosa.load(..., mono=False)`:
1-D (mono) or 2-D with one row per channel. -/
inductive NDArray where
  | mono (samples : List ℚ) : NDArray
  | multi (rows : List (List ℚ)) : NDArray
deriving DecidableEq

/-- `np.array(channels)` on a list of 1-D arrays: succeeds with a 2-D
array when all rows have equal length; on ragged rows numpy (≥ 1.24)
raises `ValueError`, modelled as `none`. -/
def np_array (rows : List (List ℚ)) : Option (List (List ℚ)) :=
  match rows with
  | [] => some []
  | r :: rs => if rs.all fun x => x.length = r.length then some (r :: rs) else none

/-- `process_audio_stereo` (lines 145-159): apply `process_fn` directly
to mono audio; for multi-channel audio apply it to each channel
separately (`y[ch]` for `ch in range(y.shape[0])`) and recombine with
`np.array`.  The channel function is modelled as 1-D → 1-D, which is the
contract of the librosa effects passed to it; a raised `ValueError` from
`np.array` is `none`. -/
def process_audio_stereo (y : NDArray) (process_fn : List ℚ → List ℚ) : Option NDArray :=
  match y with
  | NDArray.mono samples => some (NDArray.mono (process_fn samples))
  | NDArray.multi rows => (np_array (rows.map process_fn)).map NDArray.multi

/-! ### Request validation and endpoint plumbing (`audio.py` lines 14-19,
62-127, 162-245, 248-339) -/

/-- `MAX_FILE_SIZE = 100 * 1024 * 1024` bytes. -/
def MAX_FILE_SIZE : Nat := 100 * 1024 * 1024

/-- `MAX_DURATION_SECONDS = 15 * 60` seconds. -/
def MAX_DURATION_SECONDS : ℚ := 15 * 60

/-- `ALLOWED_EXTENSIONS = {".mp3", ".wav", ".flac"}` (membership only;
the Python set's iteration order is irrelevant to every claim). -/
def ALLOWED_EXTENSIONS : List String := [".mp3", ".wav", ".flac"]

/-- `EXTENSION_TO_MIME` (lines 138-142). -/
def EXTENSION_TO_MIME : List (String × String) :=
  [(".wav", "audio/wav"), (".flac", "audio/flac"), (".mp3", "audio/mpeg")]

/-- Index of the last `'.'` in a character list, if any. -/
def last_dot_pos : List Char → Option Nat
  | [] => none
  | c :: cs =>
    match last_dot_pos cs with
    | some i => some (i + 1)
    | none => if c = '.' then some 0 else none

/-- `pathlib.Path(name).suffix` for a plain file name (no directory
separators): the part from the last dot on, unless the dot is the first
or the last character. -/
def path_suffix (name : String) : String :=
  let cs := name.data
  match last_dot_pos cs with
  | some i => if 0 < i ∧ i + 1 < cs.length then String.mk (cs.drop i) else ""
  | none => ""

/-- `pathlib.Path(name).stem` for a plain file name: the name with its
suffix removed. -/
def path_stem (name : String) : String :=
  String.mk (name.data.take (name.data.length - (path_suffix name).data.length))

/-- Python `str.lower()` (the extensions involved are ASCII). -/
def str_lower (s : String) : String := String.mk (s.data.map Char.toLower)

/-- Python truthiness test `not file.filename`: true for a missing or
empty filename. -/
def filename_falsy : Option String → Bool
  | none => true
  | some s => s.data.isEmpty

/-- Python `int()` applied to a number: truncation toward zero. -/
def pyInt (q : ℚ) : ℤ := if 0 ≤ q then ⌊q⌋ else ⌈q⌉

/-- Python `round()` to an integer: round half to even. -/
def roundHalfEven (q : ℚ) : ℤ :=
  if q - ⌊q⌋ < 1 / 2 then ⌊q⌋
  else if 1 / 2 < q - ⌊q⌋ then ⌊q⌋ + 1
  else if 2 ∣ ⌊q⌋ then ⌊q⌋ else ⌊q⌋ + 1

/-- Python `round(x, 1)`. -/
def pyRound1 (q : ℚ) : ℚ := (roundHalfEven (q * 10) : ℚ) / 10

/-- The fields of a FastAPI `UploadFile` the handlers read: the client
filename and the byte length of the uploaded content. -/
structure PyUpload where
  filename : Option String
  size : Nat
deriving DecidableEq

/-- Result of a successful `librosa.load`: decoded audio, sample rate,
and the duration subsequently computed by `librosa.get_duration`. -/
structure LoadResult where
  audio : NDArray
  sr : Nat
  duration : ℚ
deriving DecidableEq

/-- The error outcomes of the handlers, one constructor per raise site
(`internal` carries the stringified cause of a generic exception mapped
to HTTP 500). -/
inductive HErr where
  | unprocessable : HErr
  | filenameRequired : HErr
  | invalidFileType : HErr
  | fileTooLarge : HErr
  | audioTooLong : HErr
  | zeroSemitones : HErr
  | internal (msg : String) : HErr
deriving DecidableEq

/-- The HTTP status code of each error outcome (`unprocessable` is the
FastAPI Form-validation rejection issued before the handler body runs). -/
def HErr.status : HErr → Nat
  | unprocessable => 422
  | filenameRequired => 400
  | invalidFileType => 400
  | fileTooLarge => 413
  | audioTooLong => 400
  | zeroSemitones => 400
  | internal _ => 500

/-- `AudioAnalysisResult` from `app/models.py`. -/
structure AnalysisResult where
  key : String
  bpm : ℚ
  duration : ℚ
deriving DecidableEq

/-- The caller-visible data of the `StreamingResponse` built by the two
transform endpoints: media type and the attachment filename. -/
structure StreamResp where
  media_type : String
  output_filename : String
deriving DecidableEq

/-- Filesystem events on the per-request temporary file: creation by
`tempfile.NamedTemporaryFile(delete=False)` and deletion by
`tmp_path.unlink()` in the `finally` block. -/
inductive FsOp where
  | createTmp : FsOp
  | unlinkTmp : FsOp
deriving DecidableEq

/-- Number of temporary files left on disk after a trace of filesystem
events. -/
def tmp_after (ops : List FsOp) : Nat :=
  ops.foldl (fun n op => match op with
    | FsOp.createTmp => n + 1
    | FsOp.unlinkTmp => n - 1) 0

/-- `analyze_audio` (lines 62-127).  External collaborators are passed
as oracles: `load` is `librosa.load` + `librosa.get_duration` on the
uploaded bytes (`Except.error` = decode exception), `beat_track` and
`chroma_cqt` are the librosa estimators (`Except.error` = processing
exception); exceptions in the `try` block become HTTP 500 and the
`finally` block unlinks the temporary file on every path that created
it.  Returns the handler outcome and the temporary-file event trace. -/
def analyze_audio (file : PyUpload) (load : Except String LoadResult)
    (beat_track : LoadResult → Except String ℚ)
    (chroma_cqt : LoadResult → Except String (List (List ℚ))) :
    Except HErr AnalysisResult × List FsOp :=
  if filename_falsy file.filename then (Except.error HErr.filenameRequired, [])
  else
    let file_ext := str_lower (path_suffix (file.filename.getD ""))
    if ¬ ALLOWED_EXTENSIONS.contains file_ext then
      (Except.error HErr.invalidFileType, [])
    else if MAX_FILE_SIZE < file.size then (Except.error HErr.fileTooLarge, [])
    else
      match load with
      | Except.error e =>
          (Except.error (HErr.internal ("Failed to analyze audio: " ++ e)),
           [FsOp.createTmp, FsOp.unlinkTmp])
      | Except.ok lr =>
        if MAX_DURATION_SECONDS < lr.duration then
          (Except.error HErr.audioTooLong, [FsOp.createTmp, FsOp.unlinkTmp])
        else
          match beat_track lr with
          | Except.error e =>
              (Except.error (HErr.internal ("Failed to analyze audio: " ++ e)),
               [FsOp.createTmp, FsOp.unlinkTmp])
          | Except.ok tempo =>
            match chroma_cqt lr with
            | Except.error e =>
                (Except.error (HErr.internal ("Failed to analyze audio: " ++ e)),
                 [FsOp.createTmp, FsOp.unlinkTmp])
            | Except.ok chromagram =>
                (Except.ok ⟨detect_key chromagram, pyRound1 tempo, pyRound1 lr.duration⟩,
                 [FsOp.createTmp, FsOp.unlinkTmp])

/-- `change_bpm` (lines 162-245).  The `Form(..., ge=0.5, le=1.5)`
bound on `bpm_factor` is enforced by FastAPI before the handler body
runs (error 422, no handler code executes).  `time_stretch` is the
oracle for `librosa.effects.time_stretch` as a function of the `rate`
keyword argument; the stereo fan-out and the ragged-output failure mode
go through `process_audio_stereo`. -/
def change_bpm (file : PyUpload) (bpm_factor : ℚ) (load : Except String LoadResult)
    (time_stretch : ℚ → List ℚ → List ℚ) :
    Except HErr StreamResp × List FsOp :=
  if ¬ (1 / 2 ≤ bpm_factor ∧ bpm_factor ≤ 3 / 2) then
    (Except.error HErr.unprocessable, [])
  else if filename_falsy file.filename then (Except.error HErr.filenameRequired, [])
  else
    let file_ext := str_lower (path_suffix (file.filename.getD ""))
    if ¬ ALLOWED_EXTENSIONS.contains file_ext then
      (Except.error HErr.invalidFileType, [])
    else if MAX_FILE_SIZE < file.size then (Except.error HErr.fileTooLarge, [])
    else
      match load with
      | Except.error e =>
          (Except.error (HErr.internal ("Failed to process audio: " ++ e)),
           [FsOp.createTmp, FsOp.unlinkTmp])
      | Except.ok lr =>
        if MAX_DURATION_SECONDS < lr.duration then
          (Except.error HErr.audioTooLong, [FsOp.createTmp, FsOp.unlinkTmp])
        else
          match process_audio_stereo lr.audio (time_stretch bpm_factor) with
          | none =>
              (Except.error (HErr.internal "Failed to process audio: ValueError"),
               [FsOp.createTmp, FsOp.unlinkTmp])
          | some _y_stretched =>
              let stem := path_stem (file.filename.getD "")
              (Except.ok ⟨(EXTENSION_TO_MIME.lookup file_ext).getD "",
                          stem ++ "_" ++ toString (pyInt (bpm_factor * 100)) ++ "pct" ++ file_ext⟩,
               [FsOp.createTmp, FsOp.unlinkTmp])

/-- `pitch_shift` (lines 248-339).  The `Form(..., ge=-12, le=12)` bound
on `semitones` is enforced by FastAPI before the handler body runs; the
in-handler `semitones == 0` check (lines 299-304) runs after the
duration check and before the engine is applied.  `ps_engine` is the
oracle for `librosa.effects.pitch_shift` as a function of the `sr` and
`n_steps` keyword arguments. -/
def pitch_shift (file : PyUpload) (semitones : ℤ) (load : Except String LoadResult)
    (ps_engine : Nat → ℤ → List ℚ → List ℚ) :
    Except HErr StreamResp × List FsOp :=
  if ¬ (-12 ≤ semitones ∧ semitones ≤ 12) then
    (Except.error HErr.unprocessable, [])
  else if filename_falsy file.filename then (Except.error HErr.filenameRequired, [])
  else
    let file_ext := str_lower (path_suffix (file.filename.getD ""))
    if ¬ ALLOWED_EXTENSIONS.contains file_ext then
      (Except.error HErr.invalidFileType, [])
    else if MAX_FILE_SIZE < file.size then (Except.error HErr.fileTooLarge, [])
    else
      match load with
      | Except.error e =>
          (Except.error (HErr.internal ("Failed to process audio: " ++ e)),
           [FsOp.createTmp, FsOp.unlinkTmp])
      | Except.ok lr =>
        if MAX_DURATION_SECONDS < lr.duration then
          (Except.error HErr.audioTooLong, [FsOp.createTmp, FsOp.unlinkTmp])
        else if semitones = 0 then
          (Except.error HErr.zeroSemitones, [FsOp.createTmp, FsOp.unlinkTmp])
        else
          match process_audio_stereo lr.audio (ps_engine lr.sr semitones) with
          | none =>
              (Except.error (HErr.internal "Failed to process audio: ValueError"),
               [FsOp.createTmp, FsOp.unlinkTmp])
          | some _y_shifted =>
              let stem := path_stem (file.filename.getD "")
              let sign := if 0 ≤ semitones then "+" else ""
              (Except.ok ⟨(EXTENSION_TO_MIME.lookup file_ext).getD "",
                          stem ++ "_" ++ sign ++ toString semitones ++ "st" ++ file_ext⟩,
               [FsOp.createTmp, FsOp.unlinkTmp])

/-! ### Auxiliary definitions for stating and proving the claims -/

/-- Real-number interpretation of a symbolic divisor. -/
noncomputable def Divisor.toReal : Divisor → ℝ
  | Divisor.divSqrt q => Real.sqrt (q : ℝ)
  | Divisor.divSqrtPlus q e => Real.sqrt (q : ℝ) + (e : ℝ)

/-- Real-number interpretation of a finite correlation value `a / √d`
(NaN has no real interpretation; the default is irrelevant). -/
noncomputable def CVal.toReal : CVal → ℝ
  | CVal.nan => 0
  | CVal.fin a d => (a : ℝ) / Real.sqrt (d : ℝ)

/-- The effect on an exact correlation value of multiplying the
chroma-mean vector by a scalar `g`: the covariance sum scales by `g` and
the variance product by `g²` (for `g > 0` this represents the same real
number). -/
def scaleCV (g : ℚ) : CVal → CVal
  | CVal.nan => CVal.nan
  | CVal.fin a d => CVal.fin (g * a) (g ^ 2 * d)

/-- `s` ends with `t`, decided on the underlying character lists (the
builtin `String.endsWith` does not reduce in the kernel). -/
def str_ends_with (s t : String) : Bool :=
  s.data.drop (s.data.length - t.data.length) == t.data

/-- Whether a handler outcome is a success. -/
def except_ok {ε α : Type} : Except ε α → Bool
  | Except.ok _ => true
  | Except.error _ => false

/-- A channel function whose output length depends on the channel
contents (used to exhibit the ragged-output behaviour of
`process_audio_stereo`). -/
def raggedFn : List ℚ → List ℚ := fun c => if c = [1] then [9, 9] else [9]

/-- The real-number Pearson correlation `np.corrcoef(x, y)[0, 1]` of two
real vectors, written with the same centered sums as `centered_dot`
(reference definition used to justify the scaled representation in
`corrcoef`; division by zero is the junk value 0 rather than NaN, which
is irrelevant to the invariance lemmas below). -/
noncomputable def pearsonR (x y : List ℝ) : ℝ :=
  ((List.zipWith (· * ·) x y).sum - x.sum * y.sum / (x.length : ℝ))
    / (Real.sqrt ((List.zipWith (· * ·) x x).sum - x.sum * x.sum / (x.length : ℝ))
       * Real.sqrt ((List.zipWith (· * ·) y y).sum - y.sum * y.sum / (y.length : ℝ)))

/-! ## Theorems -/

/-! ### Helper lemmas about `detect_key` on degenerate input -/

theorem centered_dot_self_zero {m : List ℚ} (h : ∀ x ∈ m, x = 0) :
    centered_dot m m = 0 := by
  unfold centered_dot
  rw [List.zipWith_same, List.sum_eq_zero, List.sum_eq_zero h]
  · simp
  · intro x hx
    rw [List.mem_map] at hx
    obtain ⟨a, ha, rfl⟩ := hx
    rw [h a ha]; ring

theorem chroma_corrs_all_zero (p : List ℚ) {m : List ℚ} (hm : ∀ x ∈ m, x = 0) :
    chroma_corrs p m = List.replicate 12 CVal.nan := by
  rw [List.eq_replicate_iff]
  refine ⟨by simp [chroma_corrs], ?_⟩
  intro b hb
  rw [chroma_corrs, List.mem_map] at hb
  obtain ⟨i, _, rfl⟩ := hb
  simp [corrcoef, normalize_chroma, centered_dot_self_zero hm]

theorem all_zero_mean {chroma : List (List ℚ)}
    (hz : ∀ row ∈ chroma, ∀ x ∈ row, x = 0) :
    ∀ x ∈ chroma.map np_mean, x = 0 := by
  intro x hx
  rw [List.mem_map] at hx
  obtain ⟨row, hrow, rfl⟩ := hx
  unfold np_mean
  rw [List.sum_eq_zero (hz row hrow)]
  simp

theorem detect_key_all_zero {chroma : List (List ℚ)}
    (hz : ∀ row ∈ chroma, ∀ x ∈ row, x = 0) :
    detect_key chroma = "C minor" := by
  unfold detect_key detect_key_of_mean
  rw [chroma_corrs_all_zero MAJOR_PROFILE (all_zero_mean hz),
      chroma_corrs_all_zero MINOR_PROFILE (all_zero_mean hz)]
  rfl

theorem cvgt_self (v : CVal) : cvgt v v = false := by
  cases v with
  | nan => rfl
  | fin a d =>
    simp only [cvgt, qgt]
    split_ifs <;> simp

/-! ### Claims C1, C8, C9 -/

/-- Claim C1 counterexample: for the all-zero chroma matrix the best
major correlation value equals the best minor correlation value (both
are NaN), yet the returned key does not end in " major" (the strict `>`
comparison sends every exact tie to the minor branch). -/
theorem C1_tie_counterexample :
    best_corr (chroma_corrs MAJOR_PROFILE ((List.replicate 12 [(0:ℚ)]).map np_mean))
      = best_corr (chroma_corrs MINOR_PROFILE ((List.replicate 12 [(0:ℚ)]).map np_mean)) ∧
    detect_key (List.replicate 12 [(0:ℚ)]) = "C minor" ∧
    str_ends_with (detect_key (List.replicate 12 [(0:ℚ)])) " major" = false := by
  refine ⟨?_, detect_key_all_zero (by decide), ?_⟩
  · rw [chroma_corrs_all_zero MAJOR_PROFILE (all_zero_mean (by decide)),
        chroma_corrs_all_zero MINOR_PROFILE (all_zero_mean (by decide))]
  · rw [detect_key_all_zero (by decide)]
    decide

/-- Claim C1 (amended): when the best major-rotation correlation value
and the best minor-rotation correlation value are exactly equal, the
**minor** key is selected (the code's comparison is strict `>` on the
major side, so equal values fall through to the minor branch). -/
theorem C1_tie_selects_minor (chroma : List (List ℚ))
    (h : best_corr (chroma_corrs MAJOR_PROFILE (chroma.map np_mean)) =
         best_corr (chroma_corrs MINOR_PROFILE (chroma.map np_mean))) :
    detect_key chroma =
      KEY_NAMES.getD (np_argmax (chroma_corrs MINOR_PROFILE (chroma.map np_mean))) ""
        ++ " minor" := by
  unfold detect_key detect_key_of_mean
  simp only [h, cvgt_self]
  simp

/-- Witness for the amended C1 at the all-zero chroma matrix. -/
theorem C1_tie_selects_minor_witness :
    best_corr (chroma_corrs MAJOR_PROFILE ((List.replicate 12 [(0:ℚ)]).map np_mean))
      = best_corr (chroma_corrs MINOR_PROFILE ((List.replicate 12 [(0:ℚ)]).map np_mean)) ∧
    detect_key (List.replicate 12 [(0:ℚ)]) =
      KEY_NAMES.getD
        (np_argmax (chroma_corrs MINOR_PROFILE ((List.replicate 12 [(0:ℚ)]).map np_mean))) ""
        ++ " minor" := by
  have h : best_corr (chroma_corrs MAJOR_PROFILE ((List.replicate 12 [(0:ℚ)]).map np_mean))
      = best_corr (chroma_corrs MINOR_PROFILE ((List.replicate 12 [(0:ℚ)]).map np_mean)) := by
    rw [chroma_corrs_all_zero MAJOR_PROFILE (all_zero_mean (by decide)),
        chroma_corrs_all_zero MINOR_PROFILE (all_zero_mean (by decide))]
  exact ⟨h, C1_tie_selects_minor _ h⟩

/-- Claim C8: the normalisation step of `detect_key` never divides by
zero: for every chroma matrix with non-negative entries (including the
all-zero matrix of silent input) the divisor used to normalise the
averaged chroma profile — the norm plus the `1e-10` epsilon — is a
strictly positive real number, so the division is always defined. -/
theorem C8_normalization_divisor_positive (chroma : List (List ℚ))
    (hnn : ∀ row ∈ chroma, ∀ x ∈ row, 0 ≤ x) :
    0 < Divisor.toReal (normalize_chroma (chroma.map np_mean)).den := by
  show 0 < Divisor.toReal
    (Divisor.divSqrtPlus (linalg_norm_sq (chroma.map np_mean)) (1 / 10 ^ 10))
  simp only [Divisor.toReal]
  have h1 := Real.sqrt_nonneg ((linalg_norm_sq (chroma.map np_mean) : ℚ) : ℝ)
  have h2 : (0:ℝ) < ((1 / 10 ^ 10 : ℚ) : ℝ) := by norm_num
  linarith

/-- Witness for C8 at the all-zero chroma matrix (silent input). -/
theorem C8_normalization_divisor_positive_witness :
    0 < Divisor.toReal (normalize_chroma ((List.replicate 12 [(0:ℚ)]).map np_mean)).den :=
  C8_normalization_divisor_positive (List.replicate 12 [(0:ℚ)]) (by decide)

/-- Claim C9: for every all-zero chroma matrix (silent input, one or
more frames per row) `detect_key` returns the fixed string "C minor"
and raises no exception: every Pearson correlation against the constant
normalised chroma vector is NaN, `np.argmax` over an all-NaN list
yields index 0, and the `NaN > NaN` comparison is false, so the minor
branch at pitch class 0 is taken deterministically. -/
theorem C9_silent_input_c_minor (chroma : List (List ℚ))
    (hz : ∀ row ∈ chroma, ∀ x ∈ row, x = 0)
    (hne : ∀ row ∈ chroma, row ≠ []) :
    detect_key chroma = "C minor" ∧
    chroma_corrs MAJOR_PROFILE (chroma.map np_mean) = List.replicate 12 CVal.nan ∧
    chroma_corrs MINOR_PROFILE (chroma.map np_mean) = List.replicate 12 CVal.nan ∧
    np_argmax (List.replicate 12 CVal.nan) = 0 ∧
    cvgt CVal.nan CVal.nan = false :=
  ⟨detect_key_all_zero hz,
   chroma_corrs_all_zero MAJOR_PROFILE (all_zero_mean hz),
   chroma_corrs_all_zero MINOR_PROFILE (all_zero_mean hz),
   rfl, rfl⟩

/-- Witness for C9 at the 12 × 1 all-zero chroma matrix. -/
theorem C9_silent_input_c_minor_witness :
    detect_key (List.replicate 12 [(0:ℚ)]) = "C minor" ∧
    chroma_corrs MAJOR_PROFILE ((List.replicate 12 [(0:ℚ)]).map np_mean)
      = List.replicate 12 CVal.nan ∧
    chroma_corrs MINOR_PROFILE ((List.replicate 12 [(0:ℚ)]).map np_mean)
      = List.replicate 12 CVal.nan ∧
    np_argmax (List.replicate 12 CVal.nan) = 0 ∧
    cvgt CVal.nan CVal.nan = false :=
  C9_silent_input_c_minor (List.replicate 12 [(0:ℚ)]) (by decide) (by decide)

/-! ### Claim C4: gain invariance of `detect_key` -/

theorem sum_map_smul {α : Type} [Field α] (g : α) :
    ∀ (l : List α), (l.map fun x => g * x).sum = g * l.sum
  | [] => by simp
  | x :: xs => by
    simp only [List.map_cons, List.sum_cons, sum_map_smul g xs]
    ring

theorem np_mean_smul (g : ℚ) (l : List ℚ) :
    np_mean (l.map fun x => g * x) = g * np_mean l := by
  unfold np_mean
  rw [sum_map_smul, List.length_map, mul_div_assoc]

theorem zip_mul_smul_left {α : Type} [Field α] (g : α) : ∀ (x y : List α),
    (List.zipWith (· * ·) (x.map fun a => g * a) y).sum
      = g * (List.zipWith (· * ·) x y).sum
  | [], _ => by simp
  | _ :: _, [] => by simp
  | a :: x, b :: y => by
    simp only [List.map_cons, List.zipWith_cons_cons, List.sum_cons,
      zip_mul_smul_left g x y]
    ring

theorem zip_mul_smul_right {α : Type} [Field α] (g : α) : ∀ (x y : List α),
    (List.zipWith (· * ·) x (y.map fun a => g * a)).sum
      = g * (List.zipWith (· * ·) x y).sum
  | [], _ => by simp
  | _ :: _, [] => by simp
  | a :: x, b :: y => by
    simp only [List.map_cons, List.zipWith_cons_cons, List.sum_cons,
      zip_mul_smul_right g x y]
    ring

theorem centered_dot_smul_left (g : ℚ) (x y : List ℚ) :
    centered_dot (x.map fun a => g * a) y = g * centered_dot x y := by
  unfold centered_dot
  rw [zip_mul_smul_left, sum_map_smul, List.length_map]
  ring

theorem centered_dot_smul_right (g : ℚ) (x y : List ℚ) :
    centered_dot x (y.map fun a => g * a) = g * centered_dot x y := by
  unfold centered_dot
  rw [zip_mul_smul_right, sum_map_smul]
  ring

/-- Scaling the chroma mean by `g ≠ 0` scales the covariance sum by `g`
and the variance product by `g²`, and preserves NaN-ness. -/
theorem corrcoef_smul_chroma (g : ℚ) (hg : g ≠ 0) (m : List ℚ) (y : NVec) :
    corrcoef (normalize_chroma (m.map fun a => g * a)) y
      = scaleCV g (corrcoef (normalize_chroma m) y) := by
  unfold corrcoef normalize_chroma
  simp only [centered_dot_smul_left, centered_dot_smul_right]
  by_cases hxx : centered_dot m m = 0 <;> by_cases hyy : centered_dot y.num y.num = 0 <;>
    simp [hxx, hyy, hg, scaleCV, mul_eq_zero] <;> ring_nf

/-- The exact float comparison of correlation values is invariant under
the `scaleCV` action for positive `g` (i.e. under multiplying both
represented reals by the same positive scalar `1/g` — positive scaling
of the chroma argument does not change any comparison outcome). -/
theorem qgt_smul (g : ℚ) (hg : 0 < g) (a₁ d₁ a₂ d₂ : ℚ) :
    qgt (g * a₁) (g ^ 2 * d₁) (g * a₂) (g ^ 2 * d₂) = qgt a₁ d₁ a₂ d₂ := by
  unfold qgt
  have h1 : (0 < g * a₁) ↔ (0 < a₁) := by
    constructor <;> intro h <;> nlinarith
  have h2 : (0 < g * a₂) ↔ (0 < a₂) := by
    constructor <;> intro h <;> nlinarith
  have h3 : (0 ≤ g * a₂) ↔ (0 ≤ a₂) := by
    constructor <;> intro h <;> nlinarith
  have h4 : ((g * a₂) ^ 2 * (g ^ 2 * d₁) < (g * a₁) ^ 2 * (g ^ 2 * d₂))
      ↔ (a₂ ^ 2 * d₁ < a₁ ^ 2 * d₂) := by
    have e1 : (g * a₂) ^ 2 * (g ^ 2 * d₁) = g ^ 4 * (a₂ ^ 2 * d₁) := by ring
    have e2 : (g * a₁) ^ 2 * (g ^ 2 * d₂) = g ^ 4 * (a₁ ^ 2 * d₂) := by ring
    rw [e1, e2]
    exact mul_lt_mul_left (by positivity)
  have h5 : ((g * a₁) ^ 2 * (g ^ 2 * d₂) < (g * a₂) ^ 2 * (g ^ 2 * d₁))
      ↔ (a₁ ^ 2 * d₂ < a₂ ^ 2 * d₁) := by
    have e1 : (g * a₂) ^ 2 * (g ^ 2 * d₁) = g ^ 4 * (a₂ ^ 2 * d₁) := by ring
    have e2 : (g * a₁) ^ 2 * (g ^ 2 * d₂) = g ^ 4 * (a₁ ^ 2 * d₂) := by ring
    rw [e1, e2]
    exact mul_lt_mul_left (by positivity)
  simp only [h1, h2, h3, h4, h5]

theorem cvgt_scaleCV (g : ℚ) (hg : 0 < g) (v w : CVal) :
    cvgt (scaleCV g v) (scaleCV g w) = cvgt v w := by
  cases v <;> cases w <;> simp [scaleCV, cvgt, qgt_smul g hg]

theorem cvle_scaleCV (g : ℚ) (hg : 0 < g) (v w : CVal) :
    cvle (scaleCV g v) (scaleCV g w) = cvle v w := by
  cases v <;> cases w <;> simp [scaleCV, cvle, qgt_smul g hg]

theorem argmax_go_map_scale (g : ℚ) (hg : 0 < g) :
    ∀ (l : List CVal) (mp : CVal) (idx i : Nat),
    argmax_go (scaleCV g mp) idx i (l.map (scaleCV g)) = argmax_go mp idx i l
  | [], _, _, _ => rfl
  | c :: cs, mp, idx, i => by
    simp only [List.map_cons, argmax_go]
    rw [cvle_scaleCV g hg]
    by_cases h : cvle c mp
    · rw [if_pos h, if_pos h, argmax_go_map_scale g hg cs mp idx (i + 1)]
    · rw [if_neg h, if_neg h]
      cases c with
      | nan => rfl
      | fin a d => exact argmax_go_map_scale g hg cs (CVal.fin a d) i (i + 1)

theorem np_argmax_map_scale (g : ℚ) (hg : 0 < g) (l : List CVal) :
    np_argmax (l.map (scaleCV g)) = np_argmax l := by
  cases l with
  | nil => rfl
  | cons c cs =>
    cases c with
    | nan => rfl
    | fin a d =>
      simp only [List.map_cons, np_argmax, scaleCV]
      exact argmax_go_map_scale g hg cs (CVal.fin a d) 0 1

theorem getD_map_scale (g : ℚ) : ∀ (l : List CVal) (i : Nat),
    (l.map (scaleCV g)).getD i CVal.nan = scaleCV g (l.getD i CVal.nan)
  | [], _ => rfl
  | c :: cs, 0 => rfl
  | c :: cs, n + 1 => by
    simp only [List.map_cons, List.getD_cons_succ]
    exact getD_map_scale g cs n

theorem best_corr_map_scale (g : ℚ) (hg : 0 < g) (l : List CVal) :
    best_corr (l.map (scaleCV g)) = scaleCV g (best_corr l) := by
  unfold best_corr
  rw [np_argmax_map_scale g hg, getD_map_scale]

theorem chroma_corrs_smul (g : ℚ) (hg : g ≠ 0) (p m : List ℚ) :
    chroma_corrs p (m.map fun a => g * a) = (chroma_corrs p m).map (scaleCV g) := by
  unfold chroma_corrs
  rw [List.map_map]
  apply List.map_congr_left
  intro i _
  exact corrcoef_smul_chroma g hg m (nv_roll (normalize_profile p) i)

theorem detect_key_of_mean_smul (g : ℚ) (hg : 0 < g) (m : List ℚ) :
    detect_key_of_mean (m.map fun a => g * a) = detect_key_of_mean m := by
  simp only [detect_key_of_mean, chroma_corrs_smul g hg.ne', best_corr_map_scale g hg,
    cvgt_scaleCV g hg, np_argmax_map_scale g hg]


/-! ### Bridge lemmas justifying the scaled representation -/

/-- Soundness of the exact comparison `qgt` for the represented real
numbers: for positive radicands it decides exactly
`a₁ / √d₁ > a₂ / √d₂`. -/
theorem qgt_iff_real (a₁ d₁ a₂ d₂ : ℚ) (h₁ : 0 < d₁) (h₂ : 0 < d₂) :
    qgt a₁ d₁ a₂ d₂ = true
      ↔ (a₂ : ℝ) / Real.sqrt (d₂ : ℝ) < (a₁ : ℝ) / Real.sqrt (d₁ : ℝ) := by
  have hd₁ : (0:ℝ) < (d₁ : ℝ) := by exact_mod_cast h₁
  have hd₂ : (0:ℝ) < (d₂ : ℝ) := by exact_mod_cast h₂
  have hs₁ : 0 < Real.sqrt (d₁ : ℝ) := Real.sqrt_pos.mpr hd₁
  have hs₂ : 0 < Real.sqrt (d₂ : ℝ) := Real.sqrt_pos.mpr hd₂
  have hq₁ : Real.sqrt (d₁ : ℝ) ^ 2 = (d₁ : ℝ) := Real.sq_sqrt hd₁.le
  have hq₂ : Real.sqrt (d₂ : ℝ) ^ 2 = (d₂ : ℝ) := Real.sq_sqrt hd₂.le
  rw [div_lt_div_iff hs₂ hs₁]
  unfold qgt
  split_ifs with ha₁ ha₂ ha₂'
  · have ha₁' : (0:ℝ) < (a₁ : ℝ) := by exact_mod_cast ha₁
    have ha₂'' : (0:ℝ) < (a₂ : ℝ) := by exact_mod_cast ha₂
    simp only [decide_eq_true_eq]
    constructor
    · intro h
      have h' : (a₂:ℝ) ^ 2 * (d₁:ℝ) < (a₁:ℝ) ^ 2 * (d₂:ℝ) := by exact_mod_cast h
      nlinarith [mul_pos ha₂'' hs₁, mul_pos ha₁' hs₂]
    · intro h
      have h' : (a₂:ℝ) ^ 2 * (d₁:ℝ) < (a₁:ℝ) ^ 2 * (d₂:ℝ) := by
        nlinarith [mul_pos ha₂'' hs₁, mul_pos ha₁' hs₂]
      exact_mod_cast h'
  · have ha₁' : (0:ℝ) < (a₁ : ℝ) := by exact_mod_cast ha₁
    have ha₂'' : (a₂ : ℝ) ≤ 0 := by exact_mod_cast not_lt.mp ha₂
    simp only [true_iff]
    nlinarith [mul_pos ha₁' hs₂, mul_nonpos_iff.mpr (Or.inr ⟨ha₂'', hs₁.le⟩)]
  · have ha₁' : (a₁ : ℝ) ≤ 0 := by exact_mod_cast not_lt.mp ha₁
    have ha₂'' : (0:ℝ) ≤ (a₂ : ℝ) := by exact_mod_cast ha₂'
    simp only [false_iff, not_lt]
    nlinarith [mul_nonneg ha₂'' hs₁.le, mul_nonpos_iff.mpr (Or.inr ⟨ha₁', hs₂.le⟩)]
  · have ha₁' : (a₁ : ℝ) ≤ 0 := by exact_mod_cast not_lt.mp ha₁
    have ha₂'' : (a₂ : ℝ) < 0 := by exact_mod_cast not_le.mp ha₂'
    simp only [decide_eq_true_eq]
    constructor
    · intro h
      have h' : (a₁:ℝ) ^ 2 * (d₂:ℝ) < (a₂:ℝ) ^ 2 * (d₁:ℝ) := by exact_mod_cast h
      nlinarith [mul_neg_of_neg_of_pos ha₂'' hs₁, mul_nonpos_iff.mpr (Or.inr ⟨ha₁', hs₂.le⟩)]
    · intro h
      have h' : (a₁:ℝ) ^ 2 * (d₂:ℝ) < (a₂:ℝ) ^ 2 * (d₁:ℝ) := by
        nlinarith [mul_neg_of_neg_of_pos ha₂'' hs₁, mul_nonpos_iff.mpr (Or.inr ⟨ha₁', hs₂.le⟩)]
      exact_mod_cast h'

/-- A Pearson correlation is invariant under multiplying the first
argument by a positive scalar — the fact that lets `corrcoef` ignore the
positive scalar divisor of the normalised chroma vector. -/
theorem pearsonR_smul_left (c : ℝ) (hc : 0 < c) (x y : List ℝ) :
    pearsonR (x.map fun a => c * a) y = pearsonR x y := by
  unfold pearsonR
  rw [zip_mul_smul_left, zip_mul_smul_left, zip_mul_smul_right,
      sum_map_smul, List.length_map]
  have e1 : c * (List.zipWith (· * ·) x y).sum
      - c * x.sum * y.sum / (x.length : ℝ)
      = c * ((List.zipWith (· * ·) x y).sum - x.sum * y.sum / (x.length : ℝ)) := by
    ring
  have e2 : c * (c * (List.zipWith (· * ·) x x).sum)
      - c * x.sum * (c * x.sum) / (x.length : ℝ)
      = c ^ 2 * ((List.zipWith (· * ·) x x).sum - x.sum * x.sum / (x.length : ℝ)) := by
    ring
  rw [e1, e2, Real.sqrt_mul (by positivity) , Real.sqrt_sq hc.le, mul_assoc,
      mul_div_mul_left _ _ (ne_of_gt hc)]

/-- A Pearson correlation is invariant under multiplying the second
argument by a positive scalar — the fact that lets `corrcoef` ignore the
positive scalar divisor of the normalised, rolled profile vector. -/
theorem pearsonR_smul_right (c : ℝ) (hc : 0 < c) (x y : List ℝ) :
    pearsonR x (y.map fun a => c * a) = pearsonR x y := by
  unfold pearsonR
  rw [zip_mul_smul_right, zip_mul_smul_left, zip_mul_smul_right,
      sum_map_smul, List.length_map]
  have e1 : c * (List.zipWith (· * ·) x y).sum
      - x.sum * (c * y.sum) / (x.length : ℝ)
      = c * ((List.zipWith (· * ·) x y).sum - x.sum * y.sum / (x.length : ℝ)) := by
    ring
  have e2 : c * (c * (List.zipWith (· * ·) y y).sum)
      - c * y.sum * (c * y.sum) / (y.length : ℝ)
      = c ^ 2 * ((List.zipWith (· * ·) y y).sum - y.sum * y.sum / (y.length : ℝ)) := by
    ring
  rw [e1, e2, Real.sqrt_mul (by positivity), Real.sqrt_sq hc.le, mul_left_comm,
      mul_div_mul_left _ _ (ne_of_gt hc)]

/-- Claim C4: `detect_key` is invariant under uniform positive gain
scaling: for every chroma matrix `C` and every scalar `g > 0`,
`detect_key (g • C)` returns the same key string as `detect_key C` —
the epsilon-guarded normalisation yields a positive scalar multiple of
the same mean vector, and a Pearson correlation is invariant under
positive scaling of one argument. -/
theorem C4_gain_invariance (chroma : List (List ℚ)) (g : ℚ) (hg : 0 < g) :
    detect_key (chroma.map fun row => row.map fun x => g * x) = detect_key chroma := by
  unfold detect_key
  have h : (chroma.map fun row => row.map fun x => g * x).map np_mean
      = (chroma.map np_mean).map fun a => g * a := by
    rw [List.map_map, List.map_map]
    apply List.map_congr_left
    intro row _
    exact np_mean_smul g row
  rw [h]
  exact detect_key_of_mean_smul g hg (chroma.map np_mean)

/-- Witness for C4 with gain 2 on a concrete chroma matrix. -/
theorem C4_gain_invariance_witness :
    (0:ℚ) < 2 ∧
    detect_key ((MAJOR_PROFILE.map fun x => [x]).map fun row => row.map fun x => 2 * x)
      = detect_key (MAJOR_PROFILE.map fun x => [x]) :=
  ⟨by norm_num, C4_gain_invariance (MAJOR_PROFILE.map fun x => [x]) 2 (by norm_num)⟩

/-- Claim C2 counterexample: `process_audio_stereo` does not pad or
truncate when the channel function produces outputs of different
lengths for different channels: for the two-channel input `[[0], [1]]`
and a function whose outputs have lengths 1 and 2, no recombined buffer
is produced at all (`np.array` on ragged rows raises `ValueError`),
instead of one padded/truncated to the shortest channel. -/
theorem C2_ragged_counterexample :
    (raggedFn [0]).length ≠ (raggedFn [1]).length ∧
    process_audio_stereo (NDArray.multi [[0], [1]]) raggedFn = none := by
  constructor
  · norm_num [raggedFn]
  · norm_num [process_audio_stereo, np_array, raggedFn]

/-- Claim C2 (amended): for every mono (1-D) input the channel function
is applied directly and the output stays mono (never upmixed); for
every multi-channel input the channel function is applied independently
to each channel with identical parameters and the results are
recombined preserving channel order — provided the function returns
outputs of equal length for all channels (as the deterministic librosa
engines do on equal-length channels).  Ragged per-channel outputs are
not padded or truncated to the shortest channel; recombination fails
(see `C2_ragged_counterexample`). -/
theorem C2_stereo_adapter :
    (∀ (samples : List ℚ) (f : List ℚ → List ℚ),
        process_audio_stereo (NDArray.mono samples) f = some (NDArray.mono (f samples))) ∧
    (∀ (rows : List (List ℚ)) (f : List ℚ → List ℚ),
        (∀ r₁ ∈ rows, ∀ r₂ ∈ rows, (f r₁).length = (f r₂).length) →
        process_audio_stereo (NDArray.multi rows) f = some (NDArray.multi (rows.map f))) := by
  constructor
  · intro samples f; rfl
  · intro rows f h
    cases rows with
    | nil => rfl
    | cons r rs =>
      simp only [process_audio_stereo, np_array, List.map_cons]
      rw [if_pos]
      · rfl
      · rw [List.all_eq_true]
        intro x hx
        rw [List.mem_map] at hx
        obtain ⟨a, ha, rfl⟩ := hx
        simp [h a (List.mem_cons_of_mem _ ha) r (List.mem_cons_self _ _)]

/-- Witness for the amended C2 on concrete mono and stereo buffers. -/
theorem C2_stereo_adapter_witness :
    process_audio_stereo (NDArray.mono [(1:ℚ), 2]) (fun c => c ++ c)
      = some (NDArray.mono [1, 2, 1, 2]) ∧
    process_audio_stereo (NDArray.multi [[(1:ℚ)], [2]]) (fun c => c ++ c)
      = some (NDArray.multi [[1, 1], [2, 2]]) := by
  constructor
  · exact C2_stereo_adapter.1 [1, 2] (fun c => c ++ c)
  · exact C2_stereo_adapter.2 [[1], [2]] (fun c => c ++ c) (by decide)

/-- Claim C3 counterexample: the claimed filename uses arithmetic
rounding of `rate * 100`, but the code applies Python `int()`
(truncation): for the accepted rate `0.999` the endpoint attaches
`song_99pct.wav` (`int(99.9) = 99`), not the claimed `song_100pct.wav`
(`round(99.9) = 100`). -/
theorem C3_round_counterexample :
    (change_bpm ⟨some "song.wav", 4⟩ (999 / 1000)
        (Except.ok ⟨NDArray.mono [0], 44100, 10⟩) (fun _ c => c)).1 =
      Except.ok ⟨"audio/wav", "song_99pct.wav"⟩ ∧
    "song_99pct.wav" ≠
      "song" ++ "_" ++ toString (round ((999 / 1000 : ℚ) * 100)) ++ "pct" ++ ".wav" := by
  constructor
  · have hfl : ⌊(999:ℚ) / 10⌋ = 99 := by
      rw [Int.floor_eq_iff] <;> norm_num
    have h99 : pyInt ((999:ℚ) / 10) = 99 := by
      unfold pyInt
      rw [if_pos (by norm_num), hfl]
    have hff : filename_falsy (some "song.wav") = false := by decide
    have hsuf : str_lower (path_suffix "song.wav") = ".wav" := by decide
    have hmem : (".wav" : String) ∈ ALLOWED_EXTENSIONS := by decide
    have hstem : path_stem "song.wav" = "song" := by decide
    have hmime : (EXTENSION_TO_MIME.lookup ".wav").getD "" = "audio/wav" := by decide
    have hts : toString (99 : ℤ) = "99" := by decide
    norm_num [change_bpm, MAX_FILE_SIZE, MAX_DURATION_SECONDS, process_audio_stereo,
      hff, hsuf, hmem, hstem, hmime, h99, hts]
    rfl
  · have h100 : round ((999 / 1000 : ℚ) * 100) = 100 := by
      rw [round_eq, Int.floor_eq_iff] <;> norm_num
    rw [h100]
    decide

/-- Claim C3 (amended): for every accepted `change_bpm` request with
rate `r ∈ [0.5, 1.5]`, input stem `s` and (lowercased) extension `e`,
the attached output filename is exactly
`s ++ "_" ++ toString ⌊r * 100⌋ ++ "pct" ++ e` — `int()` truncation of
`r * 100` toward zero, which for the non-negative accepted rates is the
floor, not arithmetic rounding. -/
theorem C3_truncated_filename (file : PyUpload) (fname : String)
    (load : Except String LoadResult) (ts : ℚ → List ℚ → List ℚ)
    (lr : LoadResult) (samples : List ℚ) (r : ℚ)
    (hname : file.filename = some fname)
    (hf : filename_falsy file.filename = false)
    (hext : str_lower (path_suffix fname) ∈ ALLOWED_EXTENSIONS)
    (hsize : file.size ≤ MAX_FILE_SIZE)
    (hload : load = Except.ok lr)
    (hdur : lr.duration ≤ MAX_DURATION_SECONDS)
    (haudio : lr.audio = NDArray.mono samples)
    (hr : 1 / 2 ≤ r ∧ r ≤ 3 / 2) :
    (change_bpm file r load ts).1 =
      Except.ok ⟨(EXTENSION_TO_MIME.lookup (str_lower (path_suffix fname))).getD "",
        path_stem fname ++ "_" ++ toString ⌊r * 100⌋ ++ "pct"
          ++ str_lower (path_suffix fname)⟩ := by
  have hsize' : ¬ (MAX_FILE_SIZE < file.size) := not_lt.mpr hsize
  have hdur' : ¬ (MAX_DURATION_SECONDS < lr.duration) := not_lt.mpr hdur
  have hr1 : ¬ r < (2⁻¹ : ℚ) := not_lt.mpr (by rw [← one_div]; exact hr.1)
  have hr2 : ¬ (3 / 2 : ℚ) < r := not_lt.mpr hr.2
  have hf' : filename_falsy (some fname) = false := hname ▸ hf
  have hint : pyInt (r * 100) = ⌊r * 100⌋ := by
    unfold pyInt
    rw [if_pos]
    nlinarith [hr.1]
  simp [change_bpm, hname, hf', hext, hsize', hload, hdur', hr1, hr2, haudio,
    process_audio_stereo, hint]

/-- Witness for the amended C3: rate 1.25 on `song.wav` yields
`song_125pct.wav`. -/
theorem C3_truncated_filename_witness :
    (change_bpm ⟨some "song.wav", 4⟩ (5 / 4)
        (Except.ok ⟨NDArray.mono [0], 44100, 10⟩) (fun _ c => c)).1 =
      Except.ok ⟨"audio/wav", "song_125pct.wav"⟩ := by
  have h := C3_truncated_filename ⟨some "song.wav", 4⟩ "song.wav" _ (fun _ c => c)
    ⟨NDArray.mono [0], 44100, 10⟩ [0] (5 / 4) rfl (by decide) (by decide)
    (by norm_num [MAX_FILE_SIZE]) rfl (by norm_num [MAX_DURATION_SECONDS]) rfl
    (by norm_num)
  rw [h]
  have hfl : ⌊(5:ℚ) / 4 * 100⌋ = 125 := by
    rw [Int.floor_eq_iff] <;> norm_num
  rw [hfl]
  have hsuf : str_lower (path_suffix "song.wav") = ".wav" := by decide
  have hstem : path_stem "song.wav" = "song" := by decide
  rw [hsuf, hstem]
  rfl

/-- Claim C7: on every exit path of every endpoint — successful return,
validation rejection, decode failure, or processing failure — the
per-request temporary file created for decoding is deleted before the
response (or error) is returned; no temporary storage persists past the
end of the request. -/
theorem C7_tmp_cleanup_on_every_path (file : PyUpload) (load : Except String LoadResult)
    (bt : LoadResult → Except String ℚ)
    (cc : LoadResult → Except String (List (List ℚ)))
    (r : ℚ) (ts : ℚ → List ℚ → List ℚ)
    (s : ℤ) (ps : Nat → ℤ → List ℚ → List ℚ) :
    tmp_after (analyze_audio file load bt cc).2 = 0 ∧
    tmp_after (change_bpm file r load ts).2 = 0 ∧
    tmp_after (pitch_shift file s load ps).2 = 0 := by
  refine ⟨?_, ?_, ?_⟩
  · simp only [analyze_audio]
    repeat' (split <;> try rfl)
  · simp only [change_bpm]
    repeat' (split <;> try rfl)
  · simp only [pitch_shift]
    repeat' (split <;> try rfl)

/-- Claim C5: a `pitch_shift` request with `semitones = 0` and otherwise
valid filename, extension, size and duration is rejected with the HTTP
400 zero-semitones validation error before the transform engine is
invoked: the outcome is the same for every engine `ps` and carries no
transformed audio. -/
theorem C5_zero_semitones_rejected (file : PyUpload) (load : Except String LoadResult)
    (lr : LoadResult) (ps : Nat → ℤ → List ℚ → List ℚ)
    (hf : filename_falsy file.filename = false)
    (hext : str_lower (path_suffix (file.filename.getD "")) ∈ ALLOWED_EXTENSIONS)
    (hsize : file.size ≤ MAX_FILE_SIZE)
    (hload : load = Except.ok lr)
    (hdur : lr.duration ≤ MAX_DURATION_SECONDS) :
    pitch_shift file 0 load ps
      = (Except.error HErr.zeroSemitones, [FsOp.createTmp, FsOp.unlinkTmp]) ∧
    HErr.status HErr.zeroSemitones = 400 := by
  have hsize' : ¬ (MAX_FILE_SIZE < file.size) := not_lt.mpr hsize
  have hdur' : ¬ (MAX_DURATION_SECONDS < lr.duration) := not_lt.mpr hdur
  exact ⟨by simp [pitch_shift, hf, hext, hsize', hload, hdur'], rfl⟩

/-- Witness for C5 at a concrete request. -/
theorem C5_zero_semitones_rejected_witness :
    pitch_shift ⟨some "song.wav", 4⟩ 0
        (Except.ok ⟨NDArray.mono [0], 44100, 10⟩) (fun _ _ c => c)
      = (Except.error HErr.zeroSemitones, [FsOp.createTmp, FsOp.unlinkTmp]) ∧
    HErr.status HErr.zeroSemitones = 400 :=
  C5_zero_semitones_rejected ⟨some "song.wav", 4⟩ _ ⟨NDArray.mono [0], 44100, 10⟩
    (fun _ _ c => c) (by decide) (by decide) (by decide) rfl (by norm_num [MAX_DURATION_SECONDS])

/-- Claim C6: a request whose decoded audio duration exceeds 900 seconds
is rejected with the HTTP 400 duration-limit error even when the byte
size is within the limit and the extension is allowed, on `analyze`,
`change_bpm` and `pitch_shift` alike. -/
theorem C6_duration_limit_all_endpoints (file : PyUpload) (load : Except String LoadResult)
    (bt : LoadResult → Except String ℚ)
    (cc : LoadResult → Except String (List (List ℚ)))
    (ts : ℚ → List ℚ → List ℚ) (ps : Nat → ℤ → List ℚ → List ℚ)
    (lr : LoadResult) (r : ℚ) (s : ℤ)
    (hf : filename_falsy file.filename = false)
    (hext : str_lower (path_suffix (file.filename.getD "")) ∈ ALLOWED_EXTENSIONS)
    (hsize : file.size ≤ MAX_FILE_SIZE)
    (hload : load = Except.ok lr)
    (hdur : MAX_DURATION_SECONDS < lr.duration)
    (hr : 1 / 2 ≤ r ∧ r ≤ 3 / 2)
    (hs : -12 ≤ s ∧ s ≤ 12) :
    (analyze_audio file load bt cc).1 = Except.error HErr.audioTooLong ∧
    (change_bpm file r load ts).1 = Except.error HErr.audioTooLong ∧
    (pitch_shift file s load ps).1 = Except.error HErr.audioTooLong ∧
    HErr.status HErr.audioTooLong = 400 := by
  have hsize' : ¬ (MAX_FILE_SIZE < file.size) := not_lt.mpr hsize
  have hr1 : ¬ r < (2⁻¹ : ℚ) := not_lt.mpr (by rw [← one_div]; exact hr.1)
  have hr2 : ¬ (3 / 2 : ℚ) < r := not_lt.mpr hr.2
  have hs1 : ¬ s < -12 := not_lt.mpr hs.1
  have hs2 : ¬ (12 : ℤ) < s := not_lt.mpr hs.2
  refine ⟨?_, ?_, ?_, rfl⟩
  · simp [analyze_audio, hf, hext, hsize', hload, hdur]
  · simp [change_bpm, hf, hext, hsize', hload, hdur, hr1, hr2]
  · simp [pitch_shift, hf, hext, hsize', hload, hdur, hs1, hs2]

/-- Witness for C6 at a concrete request of duration 901 s. -/
theorem C6_duration_limit_all_endpoints_witness :
    (analyze_audio ⟨some "song.wav", 4⟩ (Except.ok ⟨NDArray.mono [0], 44100, 901⟩)
        (fun _ => Except.ok 120) (fun _ => Except.ok [])).1
      = Except.error HErr.audioTooLong ∧
    (change_bpm ⟨some "song.wav", 4⟩ 1 (Except.ok ⟨NDArray.mono [0], 44100, 901⟩)
        (fun _ c => c)).1 = Except.error HErr.audioTooLong ∧
    (pitch_shift ⟨some "song.wav", 4⟩ 2 (Except.ok ⟨NDArray.mono [0], 44100, 901⟩)
        (fun _ _ c => c)).1 = Except.error HErr.audioTooLong ∧
    HErr.status HErr.audioTooLong = 400 :=
  C6_duration_limit_all_endpoints ⟨some "song.wav", 4⟩ _ _ _ _ _
    ⟨NDArray.mono [0], 44100, 901⟩ 1 2 (by decide) (by decide) (by decide) rfl
    (by norm_num [MAX_DURATION_SECONDS]) (by norm_num) (by norm_num)

/-- Claim C10: the size and duration limits are strict-inequality
rejections, so boundary inputs are accepted: a file of exactly
104857600 bytes passes the size check and decoded audio of exactly
900 seconds passes the duration check, on every endpoint (the request
then succeeds when decoding and processing succeed). -/
theorem C10_boundary_inputs_accepted (file : PyUpload) (load : Except String LoadResult)
    (bt : LoadResult → Except String ℚ)
    (cc : LoadResult → Except String (List (List ℚ)))
    (ts : ℚ → List ℚ → List ℚ) (ps : Nat → ℤ → List ℚ → List ℚ)
    (lr : LoadResult) (samples : List ℚ) (b : ℚ) (cm : List (List ℚ)) (r : ℚ) (s : ℤ)
    (hf : filename_falsy file.filename = false)
    (hext : str_lower (path_suffix (file.filename.getD "")) ∈ ALLOWED_EXTENSIONS)
    (hsize : file.size = 104857600)
    (hload : load = Except.ok lr)
    (hdur : lr.duration = 900)
    (haudio : lr.audio = NDArray.mono samples)
    (hbt : bt lr = Except.ok b) (hcc : cc lr = Except.ok cm)
    (hr : 1 / 2 ≤ r ∧ r ≤ 3 / 2)
    (hs : -12 ≤ s ∧ s ≤ 12) (hs0 : ¬ s = 0) :
    except_ok (analyze_audio file load bt cc).1 = true ∧
    except_ok (change_bpm file r load ts).1 = true ∧
    except_ok (pitch_shift file s load ps).1 = true := by
  have hsize' : ¬ (MAX_FILE_SIZE < file.size) := by
    rw [hsize]; decide
  have hdur' : ¬ (MAX_DURATION_SECONDS < lr.duration) := by
    rw [hdur]; norm_num [MAX_DURATION_SECONDS]
  have hr1 : ¬ r < (2⁻¹ : ℚ) := not_lt.mpr (by rw [← one_div]; exact hr.1)
  have hr2 : ¬ (3 / 2 : ℚ) < r := not_lt.mpr hr.2
  have hs1 : ¬ s < -12 := not_lt.mpr hs.1
  have hs2 : ¬ (12 : ℤ) < s := not_lt.mpr hs.2
  refine ⟨?_, ?_, ?_⟩
  · simp [analyze_audio, hf, hext, hsize', hload, hdur', hbt, hcc, except_ok]
  · simp [change_bpm, hf, hext, hsize', hload, hdur', hr1, hr2, haudio,
      process_audio_stereo, except_ok]
  · simp [pitch_shift, hf, hext, hsize', hload, hdur', hs1, hs2, hs0, haudio,
      process_audio_stereo, except_ok]

/-- Witness for C10 at a concrete request of exactly 104857600 bytes and
exactly 900 s duration. -/
theorem C10_boundary_inputs_accepted_witness :
    except_ok (analyze_audio ⟨some "song.wav", 104857600⟩
        (Except.ok ⟨NDArray.mono [0], 44100, 900⟩)
        (fun _ => Except.ok 120) (fun _ => Except.ok [])).1 = true ∧
    except_ok (change_bpm ⟨some "song.wav", 104857600⟩ 1
        (Except.ok ⟨NDArray.mono [0], 44100, 900⟩) (fun _ c => c)).1 = true ∧
    except_ok (pitch_shift ⟨some "song.wav", 104857600⟩ 2
        (Except.ok ⟨NDArray.mono [0], 44100, 900⟩) (fun _ _ c => c)).1 = true :=
  C10_boundary_inputs_accepted ⟨some "song.wav", 104857600⟩ _ _ _ _ _
    ⟨NDArray.mono [0], 44100, 900⟩ [0] 120 [] 1 2 (by decide) (by decide) rfl rfl rfl rfl
    rfl rfl (by norm_num) (by norm_num) (by norm_num)

end Mkv
